import Mathlib

/-!
A verification development for the realtime voice-streaming session core
(`LuminaSession`): PCM16 framing/encoding, base64 transport encoding,
the gapless playback scheduler, tool-call handling, the session lifecycle
and teardown. Definitions are a shallow embedding of the TypeScript source;
JS strings are modelled as lists of UTF-16 code units (natural numbers),
audio samples and clock times as rationals, and the `Int16Array` store
conversion (truncate toward zero, wrap modulo 2^16) is made explicit.
-/

namespace LuminaLive

/-! ## Base64 transport encoding (`btoa` / `atob` over latin-1 code units) -/

/-- The base64 alphabet: sextet value to ASCII code
(`A`-`Z`, `a`-`z`, `0`-`9`, `+`, `/`). -/
def b64Code (n : ℕ) : ℕ :=
  if n < 26 then 65 + n
  else if n < 52 then 97 + (n - 26)
  else if n < 62 then 48 + (n - 52)
  else if n = 62 then 43
  else 47

/-- Inverse of the base64 alphabet: ASCII code to sextet value. -/
def b64Dec (c : ℕ) : ℕ :=
  if 65 ≤ c ∧ c ≤ 90 then c - 65
  else if 97 ≤ c ∧ c ≤ 122 then c - 97 + 26
  else if 48 ≤ c ∧ c ≤ 57 then c - 48 + 52
  else if c = 43 then 62
  else 63

/-- `btoa` on a latin-1 byte sequence: groups of three bytes become four
base64 code units; a trailing group of one or two bytes is padded with
`=` (ASCII 61). -/
def btoa : List ℕ → List ℕ
  | [] => []
  | [a] => [b64Code (a / 4), b64Code (a % 4 * 16), 61, 61]
  | [a, b] => [b64Code (a / 4), b64Code (a % 4 * 16 + b / 16), b64Code (b % 16 * 4), 61]
  | a :: b :: c :: rest =>
      b64Code (a / 4) :: b64Code (a % 4 * 16 + b / 16) ::
        b64Code (b % 16 * 4 + c / 64) :: (b64Code (c % 64) :: btoa rest)

/-- `atob`: four base64 code units back to three bytes, with `=` padding
signalling a final group of one or two bytes. -/
def atob : List ℕ → List ℕ
  | c1 :: c2 :: c3 :: c4 :: rest =>
      if c3 = 61 then [b64Dec c1 * 4 + b64Dec c2 / 16]
      else if c4 = 61 then
        [b64Dec c1 * 4 + b64Dec c2 / 16, b64Dec c2 % 16 * 16 + b64Dec c3 / 4]
      else
        (b64Dec c1 * 4 + b64Dec c2 / 16) ::
          (b64Dec c2 % 16 * 16 + b64Dec c3 / 4) ::
          (b64Dec c3 % 4 * 64 + b64Dec c4) :: atob rest
  | _ => []

/-! ## PCM16 quantization and byte packing -/

/-- JS `ToInteger`: truncation of a rational toward zero. -/
def truncQ (q : ℚ) : ℤ := if 0 ≤ q then ⌊q⌋ else ⌈q⌉

/-- JS `ToInt16`: reduce an integer modulo 2^16 into `[-32768, 32768)`
(the value an `Int16Array` cell actually stores; out-of-range values
wrap around). -/
def toInt16 (n : ℤ) : ℤ := (n + 32768) % 65536 - 32768

/-- One sample through `int16[i] = data[i] * 32768`: scale, truncate
toward zero, wrap into the int16 range. -/
def quantize (s : ℚ) : ℤ := toInt16 (truncQ (s * 32768))

/-- The two little-endian bytes of an int16 value as stored in the
`Int16Array` buffer. -/
def int16ToBytesLE (v : ℤ) : List ℕ :=
  [(v % 65536).toNat % 256, (v % 65536).toNat / 256]

/-- Reading two little-endian bytes back as a signed 16-bit value. -/
def int16OfBytes (lo hi : ℕ) : ℤ :=
  if lo + 256 * hi < 32768 then (lo + 256 * hi : ℤ)
  else (lo + 256 * hi : ℤ) - 65536

/-- Reinterpreting a byte sequence as an `Int16Array` (pairs of
little-endian bytes; a trailing odd byte cannot occur on the even-length
inputs we use this on). -/
def bytesToInt16s : List ℕ → List ℤ
  | lo :: hi :: rest => int16OfBytes lo hi :: bytesToInt16s rest
  | _ => []

/-! ## `createBlob` and `decodeAudioData` -/

/-- The outbound media blob: base64 payload plus MIME descriptor. -/
structure Blob where
  data : List ℕ
  mimeType : String
deriving DecidableEq

/-- ASCII code units of the fixed outbound MIME descriptor. -/
def pcmMime : String := "audio/pcm;rate=16000"

/-- `LuminaSession.createBlob`: quantize every captured sample to int16,
pack the `Int16Array` buffer little-endian, base64-encode, tag with the
16 kHz PCM descriptor. -/
def createBlob (data : List ℚ) : Blob :=
  { data := btoa ((data.map quantize).flatMap int16ToBytesLE)
    mimeType := pcmMime }

/-- `LuminaSession.decodeAudioData`: base64-decode, reinterpret the bytes
as little-endian int16 frames, normalize each by `/ 32768.0`. Constructing
an `Int16Array` over a buffer of odd byte length throws, which we model as
`none` (the failure is caught by the caller). -/
def decodeAudioData (b64 : List ℕ) : Option (List ℚ) :=
  let bytes := atob b64
  if bytes.length % 2 = 0 then
    some ((bytesToInt16s bytes).map fun v : ℤ => (v : ℚ) / 32768)
  else none

/-- Encode-then-decode through the PCM16 path. -/
def roundtrip (data : List ℚ) : Option (List ℚ) :=
  decodeAudioData (createBlob data).data

/-! ## Session state, observable events, and the lifecycle step function -/

/-- An `AudioBufferSourceNode` registered in the session's active set:
its identity, absolute start time on the output clock, and the buffer
duration (`frameCount / 24000`). -/
structure ScheduledUnit where
  id : ℕ
  startTime : ℚ
  duration : ℚ
deriving DecidableEq

/-- The mutable fields of `LuminaSession`. Nullable resource handles are
presence flags (the source nulls none of them during teardown);
`nextStartTime` is the playback watermark; `sources` is the active set of
scheduled playback units, in scheduling order; `nextId` supplies unit
identities. -/
structure LuminaState where
  hasSession : Bool
  hasInputContext : Bool
  hasOutputContext : Bool
  hasProcessor : Bool
  hasSource : Bool
  hasStream : Bool
  nextStartTime : ℚ
  sources : List ScheduledUnit
  nextId : ℕ
deriving DecidableEq

/-- The freshly constructed session: no resources, watermark 0, empty
active set. -/
def initialState : LuminaState :=
  { hasSession := false, hasInputContext := false, hasOutputContext := false
    hasProcessor := false, hasSource := false, hasStream := false
    nextStartTime := 0, sources := [], nextId := 0 }

/-- Observable effects of the session on its collaborators: the status/UI
callback, the screen-update callback, outbound tool responses, audio-node
operations, device/context releases, and console logging. -/
inductive Event where
  | statusChange (s : String)
  | screenUpdate (title content : String)
  | toolResponse (id name result : String)
  | sourceStart (id : ℕ) (t : ℚ)
  | sourceStop (id : ℕ)
  | trackStop
  | sourceDisconnect
  | processorDisconnect
  | inputContextClose
  | outputContextClose
  | logError (msg : String)
deriving DecidableEq

/-- One inbound tool invocation: `{id, name, args}` with the
`update_screen` argument fields. -/
structure FunctionCall where
  id : String
  name : String
  title : String
  contentMarkdown : String
deriving DecidableEq

/-- An inbound `LiveServerMessage`, reduced to the two fields the handler
reads: the optional base64 audio payload of the first part, and the
optional tool-call list. -/
structure Message where
  audioData : Option (List ℕ)
  toolCalls : Option (List FunctionCall)
deriving DecidableEq

/-- `LuminaSession.connect` (synchronous part): emit `Connecting...`,
create both audio contexts, acquire the microphone stream, open the live
session. -/
def connect (st : LuminaState) : LuminaState × List Event :=
  ({ st with hasSession := true, hasInputContext := true
             hasOutputContext := true, hasStream := true },
   [.statusChange "Connecting..."])

/-- `LuminaSession.startAudioInput`: guard on context and stream, then
create the media-stream source and script processor. -/
def startAudioInput (st : LuminaState) : LuminaState :=
  if st.hasInputContext ∧ st.hasStream then
    { st with hasSource := true, hasProcessor := true }
  else st

/-- `LuminaSession.playAudio` at output-clock reading `now`: resync the
watermark to `max(watermark, now)`, decode; on success schedule the buffer
to start exactly at the watermark, advance the watermark by the buffer
duration and register the unit; on decode failure log and drop the chunk
(the resync has already happened). -/
def playAudio (st : LuminaState) (now : ℚ) (b64 : List ℕ) :
    LuminaState × List Event :=
  if st.hasOutputContext then
    let w := max st.nextStartTime now
    match decodeAudioData b64 with
    | none => ({ st with nextStartTime := w }, [.logError "Audio Decode Error"])
    | some samples =>
        let dur : ℚ := (samples.length : ℚ) / 24000
        ({ st with nextStartTime := w + dur
                   sources := st.sources ++ [⟨st.nextId, w, dur⟩]
                   nextId := st.nextId + 1 },
         [.sourceStart st.nextId w])
  else (st, [])

/-- One inbound tool invocation: only `update_screen` calls are handled;
each produces the screen-update effect and exactly one correlated
response. -/
def handleToolCall (fc : FunctionCall) : List Event :=
  if fc.name = "update_screen" then
    [.screenUpdate fc.title fc.contentMarkdown,
     .toolResponse fc.id fc.name "Screen updated successfully."]
  else []

/-- `LuminaSession.handleMessage`: an audio payload (non-empty, with the
output context present) is handed to the scheduler; every tool invocation
in the message is processed in order. -/
def handleMessage (st : LuminaState) (now : ℚ) (msg : Message) :
    LuminaState × List Event :=
  let audio :=
    match msg.audioData with
    | some b64 => if b64 ≠ [] ∧ st.hasOutputContext then playAudio st now b64 else (st, [])
    | none => (st, [])
  let toolEvents :=
    match msg.toolCalls with
    | some fcs => fcs.flatMap handleToolCall
    | none => []
  (audio.1, audio.2 ++ toolEvents)

/-- `LuminaSession.disconnect`: disconnect the source node and processor,
stop the stream tracks, close the input and output contexts, then stop
every unit in the active set and clear it, and finally emit
`Disconnected`. No handle field is nulled, and no step is guarded against
exceptions from an earlier one. -/
def disconnect (st : LuminaState) : LuminaState × List Event :=
  ({ st with sources := [] },
   (if st.hasSource then [Event.sourceDisconnect] else []) ++
   (if st.hasProcessor then [Event.processorDisconnect] else []) ++
   (if st.hasStream then [Event.trackStop] else []) ++
   (if st.hasInputContext then [Event.inputContextClose] else []) ++
   (if st.hasOutputContext then [Event.outputContextClose] else []) ++
   st.sources.map (fun u => Event.sourceStop u.id) ++
   [.statusChange "Disconnected"])

/-- Environment stimuli driving the session: the user's connect and
disconnect requests, the live-channel lifecycle callbacks, inbound
messages (tagged with the output clock's reading when processed), and a
playback-ended notification. -/
inductive EnvEvent where
  | userConnect
  | chanOpen
  | chanMessage (now : ℚ) (msg : Message)
  | chanClose
  | chanError
  | ended (id : ℕ)
  | userDisconnect

/-- The session's reaction to one environment stimulus: the `onopen`,
`onmessage`, `onclose`, `onerror` callbacks, the `ended` listener removing
a unit from the active set, and the two user-facing entry points. -/
def step (st : LuminaState) (e : EnvEvent) : LuminaState × List Event :=
  match e with
  | .userConnect => connect st
  | .chanOpen => (startAudioInput st, [.statusChange "Connected"])
  | .chanMessage now msg => handleMessage st now msg
  | .chanClose => (st, [.statusChange "Disconnected"])
  | .chanError => (st, [.logError "Live API Error:", .statusChange "Error"])
  | .ended i => ({ st with sources := st.sources.filter (fun u => u.id ≠ i) }, [])
  | .userDisconnect => disconnect st

/-- The status strings carried by an event trace. -/
def statusesOf (evs : List Event) : List String :=
  evs.filterMap fun e =>
    match e with
    | .statusChange s => some s
    | _ => none

/-! ## Definitions taken from the specification's words (for comparison
with the source-derived definitions above) -/

/-- Modelled from the spec's words: quantization as
`round(s * 32768)` clamped to the int16 range at the boundary. -/
def specQuantize (s : ℚ) : ℤ := max (-32768) (min 32767 (round (s * 32768)))

/-- Modelled from the spec's words: the four coarse lifecycle strings the
status callback is claimed to be limited to. -/
def claimedStatuses : List String := ["Connecting", "Connected", "Disconnected", "Error"]

/-- Modelled from the spec's words: the claimed teardown order — stop the
capture pipeline first, then every active playback unit, then the input
track(s), then both contexts. -/
def specTeardownTrace (st : LuminaState) : List Event :=
  (if st.hasSource then [Event.sourceDisconnect] else []) ++
  (if st.hasProcessor then [Event.processorDisconnect] else []) ++
  st.sources.map (fun u => Event.sourceStop u.id) ++
  (if st.hasStream then [Event.trackStop] else []) ++
  (if st.hasInputContext then [Event.inputContextClose] else []) ++
  (if st.hasOutputContext then [Event.outputContextClose] else []) ++
  [.statusChange "Disconnected"]

/-- A convenient fully connected state with a given watermark and active
set, as produced by `connect` then `chanOpen`. -/
def connectedState (w : ℚ) (units : List ScheduledUnit) (nid : ℕ) : LuminaState :=
  { hasSession := true, hasInputContext := true, hasOutputContext := true
    hasProcessor := true, hasSource := true, hasStream := true
    nextStartTime := w, sources := units, nextId := nid }

/-! ## Helper lemmas: base64, int16 packing, truncation -/

theorem b64Dec_b64Code {n : ℕ} (h : n < 64) : b64Dec (b64Code n) = n := by
  unfold b64Code b64Dec
  split_ifs <;> omega

theorem b64Code_ne_pad {n : ℕ} (h : n < 64) : b64Code n ≠ 61 := by
  unfold b64Code
  split_ifs <;> omega

theorem b64Dec_lt (c : ℕ) : b64Dec c < 64 := by
  unfold b64Dec
  split_ifs <;> omega

theorem atob_btoa (l : List ℕ) (h : ∀ b ∈ l, b < 256) : atob (btoa l) = l := by
  induction l using btoa.induct with
  | case1 => simp [btoa, atob]
  | case2 a =>
      have ha : a < 256 := h a (by simp)
      rw [btoa, atob]
      rw [if_pos rfl]
      rw [b64Dec_b64Code (by omega), b64Dec_b64Code (by omega)]
      simp only [List.cons.injEq, and_true]
      omega
  | case3 a b =>
      have ha : a < 256 := h a (by simp)
      have hb : b < 256 := h b (by simp)
      rw [btoa, atob]
      rw [if_neg (b64Code_ne_pad (by omega)), if_pos rfl]
      rw [b64Dec_b64Code (by omega), b64Dec_b64Code (by omega),
        b64Dec_b64Code (by omega)]
      simp only [List.cons.injEq, and_true]
      omega
  | case4 a b c rest ih =>
      have ha : a < 256 := h a (by simp)
      have hb : b < 256 := h b (by simp)
      have hc : c < 256 := h c (by simp)
      rw [btoa, atob]
      rw [if_neg (b64Code_ne_pad (by omega)), if_neg (b64Code_ne_pad (by omega))]
      rw [b64Dec_b64Code (by omega), b64Dec_b64Code (by omega),
        b64Dec_b64Code (by omega), b64Dec_b64Code (by omega)]
      rw [ih (fun x hx => h x (by simp [hx]))]
      simp only [List.cons.injEq, and_true]
      omega

theorem mem_atob_lt_256 (l : List ℕ) : ∀ b ∈ atob l, b < 256 := by
  induction l using atob.induct with
  | case1 c1 c2 c4 rest =>
      rw [atob, if_pos rfl]
      intro b hb
      simp only [List.mem_singleton] at hb
      have := b64Dec_lt c1
      have := b64Dec_lt c2
      omega
  | case2 c1 c2 c3 rest h3 =>
      rw [atob, if_neg h3, if_pos rfl]
      intro b hb
      simp only [List.mem_cons, List.not_mem_nil, or_false] at hb
      have := b64Dec_lt c1
      have := b64Dec_lt c2
      have := b64Dec_lt c3
      omega
  | case3 c1 c2 c3 c4 rest h3 h4 ih =>
      rw [atob, if_neg h3, if_neg h4]
      intro b hb
      simp only [List.mem_cons] at hb
      have := b64Dec_lt c1
      have := b64Dec_lt c2
      have := b64Dec_lt c3
      have := b64Dec_lt c4
      rcases hb with rfl | rfl | rfl | hb
      · omega
      · omega
      · omega
      · exact ih b hb
  | case4 t ht =>
      rcases t with _ | ⟨a, _ | ⟨b, _ | ⟨c, _ | ⟨d, r⟩⟩⟩⟩
      · simp [atob]
      · simp [atob]
      · simp [atob]
      · simp [atob]
      · exact absurd rfl (fun hh => ht a b c d r hh)

theorem toInt16_range (n : ℤ) : -32768 ≤ toInt16 n ∧ toInt16 n < 32768 := by
  unfold toInt16
  omega

theorem toInt16_eq_self {n : ℤ} (h1 : -32768 ≤ n) (h2 : n < 32768) :
    toInt16 n = n := by
  unfold toInt16
  omega

theorem quantize_range (s : ℚ) : -32768 ≤ quantize s ∧ quantize s < 32768 :=
  toInt16_range _

theorem int16ToBytesLE_lt_256 (v : ℤ) : ∀ b ∈ int16ToBytesLE v, b < 256 := by
  unfold int16ToBytesLE
  intro b hb
  simp only [List.mem_cons, List.not_mem_nil, or_false] at hb
  rcases hb with rfl | rfl <;> omega

theorem int16OfBytes_int16ToBytesLE {v : ℤ} (h1 : -32768 ≤ v) (h2 : v < 32768) :
    int16OfBytes ((v % 65536).toNat % 256) ((v % 65536).toNat / 256) = v := by
  unfold int16OfBytes
  split <;> omega

theorem bytesToInt16s_pack (vs : List ℤ) (h : ∀ v ∈ vs, -32768 ≤ v ∧ v < 32768) :
    bytesToInt16s (vs.flatMap int16ToBytesLE) = vs := by
  induction vs with
  | nil => rfl
  | cons v rest ih =>
      have hv := h v (by simp)
      simp only [List.flatMap_cons]
      rw [int16ToBytesLE, List.cons_append, List.cons_append, List.nil_append,
        bytesToInt16s]
      rw [int16OfBytes_int16ToBytesLE hv.1 hv.2, ih fun x hx => h x (by simp [hx])]

theorem int16ToBytesLE_length (v : ℤ) : (int16ToBytesLE v).length = 2 := rfl

theorem flatMap_bytes_length (vs : List ℤ) :
    (vs.flatMap int16ToBytesLE).length = 2 * vs.length := by
  induction vs with
  | nil => rfl
  | cons v rest ih =>
      simp only [List.flatMap_cons, List.length_append, List.length_cons, ih,
        int16ToBytesLE_length]
      omega

theorem bytesToInt16s_length (l : List ℕ) :
    (bytesToInt16s l).length = l.length / 2 := by
  induction l using bytesToInt16s.induct with
  | case1 lo hi rest ih =>
      rw [bytesToInt16s]
      simp only [List.length_cons, ih]
      omega
  | case2 t ht =>
      rcases t with _ | ⟨a, _ | ⟨b, r⟩⟩
      · simp [bytesToInt16s]
      · simp [bytesToInt16s]
      · exact absurd rfl (fun hh => ht a b r hh)

theorem bytesToInt16s_range (l : List ℕ) (h : ∀ b ∈ l, b < 256) :
    ∀ v ∈ bytesToInt16s l, -32768 ≤ v ∧ v < 32768 := by
  induction l using bytesToInt16s.induct with
  | case1 lo hi rest ih =>
      rw [bytesToInt16s]
      intro v hv
      simp only [List.mem_cons] at hv
      rcases hv with rfl | hv
      · have hlo : lo < 256 := h lo (by simp)
        have hhi : hi < 256 := h hi (by simp)
        unfold int16OfBytes
        split <;> omega
      · exact ih (fun b hb => h b (by simp [hb])) v hv
  | case2 t ht =>
      rcases t with _ | ⟨a, _ | ⟨b, r⟩⟩
      · intro v hv; simp [bytesToInt16s] at hv
      · intro v hv; simp [bytesToInt16s] at hv
      · exact absurd rfl (fun hh => ht a b r hh)

/-- The developed form of the encode-then-decode pipeline: the blob decodes
back to exactly the quantized samples, renormalized by 32768. -/
theorem roundtrip_eq (data : List ℚ) :
    roundtrip data = some ((data.map quantize).map fun v : ℤ => (v : ℚ) / 32768) := by
  have hlt : ∀ b ∈ (data.map quantize).flatMap int16ToBytesLE, b < 256 := by
    intro b hb
    simp only [List.mem_flatMap] at hb
    obtain ⟨v, _, hv⟩ := hb
    exact int16ToBytesLE_lt_256 v b hv
  have hpack : bytesToInt16s ((data.map quantize).flatMap int16ToBytesLE) =
      data.map quantize := by
    refine bytesToInt16s_pack _ fun v hv => ?hrange
    simp only [List.mem_map] at hv
    obtain ⟨s, _, rfl⟩ := hv
    exact quantize_range s
  simp only [roundtrip, createBlob, decodeAudioData]
  rw [atob_btoa _ hlt, flatMap_bytes_length, hpack]
  simp

/-! ## Truncation bounds and the in-range quantization characterization -/

theorem truncQ_close (q : ℚ) : |q - (truncQ q : ℚ)| < 1 := by
  unfold truncQ
  split
  · rw [abs_sub_lt_iff]
    constructor
    · have := Int.lt_floor_add_one q
      push_cast at this ⊢
      linarith
    · have := Int.floor_le q
      push_cast at this ⊢
      linarith
  · rw [abs_sub_lt_iff]
    constructor
    · have := Int.le_ceil q
      push_cast at this ⊢
      linarith
    · have := Int.ceil_lt_add_one q
      push_cast at this ⊢
      linarith

theorem truncQ_in_range {q : ℚ} (h1 : -32768 ≤ q) (h2 : q < 32768) :
    -32768 ≤ truncQ q ∧ truncQ q < 32768 := by
  unfold truncQ
  split
  · constructor
    · have : (0 : ℤ) ≤ ⌊q⌋ := Int.floor_nonneg.mpr (by assumption)
      omega
    · exact Int.floor_lt.mpr (by exact_mod_cast h2)
  · constructor
    · have hq : (q : ℚ) ≤ (⌈q⌉ : ℚ) := Int.le_ceil q
      have : (-32768 : ℚ) ≤ (⌈q⌉ : ℚ) := by linarith
      exact_mod_cast this
    · have : ⌈q⌉ ≤ (0 : ℤ) := Int.ceil_le.mpr (by push_cast; linarith)
      omega

/-- For samples in `[-1, 1)` the wrap in `toInt16` is the identity and
quantization is plain truncation of `s * 32768`. -/
theorem quantize_eq_trunc {s : ℚ} (h1 : -1 ≤ s) (h2 : s < 1) :
    quantize s = truncQ (s * 32768) := by
  unfold quantize
  have hr := truncQ_in_range (q := s * 32768) (by linarith) (by linarith)
  exact toInt16_eq_self hr.1 hr.2

/-- For samples in `[-1, 1)`, one quantization step bounds the roundtrip
error. -/
theorem quantize_close {s : ℚ} (h1 : -1 ≤ s) (h2 : s < 1) :
    |s - (quantize s : ℚ) / 32768| ≤ 1 / 32768 := by
  rw [quantize_eq_trunc h1 h2]
  have hc := truncQ_close (s * 32768)
  have : s - (truncQ (s * 32768) : ℚ) / 32768 =
      (s * 32768 - (truncQ (s * 32768) : ℚ)) / 32768 := by ring
  rw [this, abs_div]
  rw [abs_of_pos (by norm_num : (0 : ℚ) < 32768)]
  have hle : |s * 32768 - (truncQ (s * 32768) : ℚ)| ≤ 1 := le_of_lt hc
  gcongr

/-! ## Concrete payloads and evaluation lemmas

`Rat` arithmetic does not reduce in the kernel, so concrete evaluations
are established once here by `norm_num` and reused by the claim
theorems. -/

/-- The payload `AAA=`: two zero bytes, one zero int16 frame. -/
def chunkZero : List ℕ := [65, 65, 65, 61]

/-- The payload `AA==`: a single byte; `new Int16Array` over an odd-length
buffer throws, so decoding fails. -/
def chunkBad : List ℕ := [65, 65, 61, 61]

theorem decode_chunkZero : decodeAudioData chunkZero = some [0] := by
  simp only [decodeAudioData, show atob chunkZero = [0, 0] from by decide]
  norm_num [bytesToInt16s, int16OfBytes]

theorem decode_chunkBad : decodeAudioData chunkBad = none := by
  simp only [decodeAudioData, show atob chunkBad = [0] from by decide]
  norm_num

theorem quantize_one : quantize 1 = -32768 := by
  unfold quantize truncQ toInt16
  rw [show (1 : ℚ) * 32768 = 32768 by norm_num]
  rw [if_pos (by norm_num : (0 : ℚ) ≤ 32768)]
  rw [show ⌊(32768 : ℚ)⌋ = 32768 by norm_num]
  decide

theorem quantize_neg_one : quantize (-1) = -32768 := by
  unfold quantize truncQ toInt16
  rw [show (-1 : ℚ) * 32768 = -32768 by norm_num]
  rw [if_neg (by norm_num : ¬ (0 : ℚ) ≤ -32768)]
  rw [show (-32768 : ℚ) = ((-32768 : ℤ) : ℚ) by norm_num, Int.ceil_intCast]
  decide

theorem quantize_half : quantize (1 / 2) = 16384 := by
  unfold quantize truncQ toInt16
  rw [show (1 / 2 : ℚ) * 32768 = 16384 by norm_num]
  rw [if_pos (by norm_num : (0 : ℚ) ≤ 16384)]
  rw [show ⌊(16384 : ℚ)⌋ = 16384 by norm_num]
  decide

theorem quantize_half_step : quantize (1 / 65536) = 0 := by
  unfold quantize truncQ toInt16
  rw [show (1 / 65536 : ℚ) * 32768 = 1 / 2 by norm_num]
  rw [if_pos (by norm_num : (0 : ℚ) ≤ 1 / 2)]
  rw [show ⌊(1 : ℚ) / 2⌋ = 0 by norm_num]
  decide

theorem specQuantize_one : specQuantize 1 = 32767 := by
  unfold specQuantize
  rw [show (1 : ℚ) * 32768 = 32768 by norm_num, round_eq]
  rw [show ⌊(32768 : ℚ) + 1 / 2⌋ = 32768 by norm_num]
  decide

theorem specQuantize_half_step : specQuantize (1 / 65536) = 1 := by
  unfold specQuantize
  rw [show (1 / 65536 : ℚ) * 32768 = 1 / 2 by norm_num, round_eq]
  rw [show ⌊(1 : ℚ) / 2 + 1 / 2⌋ = 1 by norm_num]
  decide

/-! ## Session-model helper lemmas -/

/-- Predicate for playback-stop events. -/
def isSourceStop : Event → Bool
  | .sourceStop _ => true
  | _ => false

/-- The `(id, name)` pairs of the tool responses in a trace. -/
def toolResponses (evs : List Event) : List (String × String) :=
  evs.filterMap fun e =>
    match e with
    | .toolResponse i n _ => some (i, n)
    | _ => none

theorem playAudio_some (st : LuminaState) (now : ℚ) (b64 : List ℕ)
    (samples : List ℚ) (hctx : st.hasOutputContext = true)
    (hdec : decodeAudioData b64 = some samples) :
    playAudio st now b64 =
      ({ st with
          nextStartTime := max st.nextStartTime now + (samples.length : ℚ) / 24000
          sources := st.sources ++
            [⟨st.nextId, max st.nextStartTime now, (samples.length : ℚ) / 24000⟩]
          nextId := st.nextId + 1 },
       [.sourceStart st.nextId (max st.nextStartTime now)]) := by
  unfold playAudio
  rw [if_pos hctx, hdec]

theorem playAudio_none (st : LuminaState) (now : ℚ) (b64 : List ℕ)
    (hctx : st.hasOutputContext = true) (hdec : decodeAudioData b64 = none) :
    playAudio st now b64 =
      ({ st with nextStartTime := max st.nextStartTime now },
       [.logError "Audio Decode Error"]) := by
  unfold playAudio
  rw [if_pos hctx, hdec]

theorem statusesOf_append (a b : List Event) :
    statusesOf (a ++ b) = statusesOf a ++ statusesOf b :=
  List.filterMap_append a b _

theorem statusesOf_playAudio (st : LuminaState) (now : ℚ) (b64 : List ℕ) :
    statusesOf (playAudio st now b64).2 = [] := by
  unfold playAudio
  split
  · rcases hdec : decodeAudioData b64 with _ | samples <;>
      simp only [hdec] <;> rfl
  · rfl

theorem toolResponses_playAudio (st : LuminaState) (now : ℚ) (b64 : List ℕ) :
    toolResponses (playAudio st now b64).2 = [] := by
  unfold playAudio
  split
  · rcases hdec : decodeAudioData b64 with _ | samples <;>
      simp only [hdec] <;> rfl
  · rfl

theorem toolResponses_append (a b : List Event) :
    toolResponses (a ++ b) = toolResponses a ++ toolResponses b :=
  List.filterMap_append a b _

theorem toolResponses_flatMap (fcs : List FunctionCall) :
    toolResponses (fcs.flatMap handleToolCall) =
      (fcs.filter fun fc => fc.name = "update_screen").map fun fc => (fc.id, fc.name) := by
  induction fcs with
  | nil => rfl
  | cons fc rest ih =>
      rw [List.flatMap_cons, toolResponses_append, ih]
      unfold handleToolCall
      by_cases hname : fc.name = "update_screen" <;>
        simp [hname, toolResponses, List.filter_cons]

theorem statusesOf_flatMap (fcs : List FunctionCall) :
    statusesOf (fcs.flatMap handleToolCall) = [] := by
  induction fcs with
  | nil => rfl
  | cons fc rest ih =>
      rw [List.flatMap_cons, statusesOf_append, ih]
      unfold handleToolCall
      by_cases hname : fc.name = "update_screen" <;> simp [hname, statusesOf]

theorem statusesOf_handleMessage (st : LuminaState) (now : ℚ) (msg : Message) :
    statusesOf (handleMessage st now msg).2 = [] := by
  rcases hA : msg.audioData with _ | b64 <;> rcases hT : msg.toolCalls with _ | fcs <;>
    simp only [handleMessage, hA, hT]
  · rfl
  · exact statusesOf_flatMap fcs
  · split
    · rw [List.append_nil, statusesOf_playAudio]
    · rfl
  · split
    · rw [statusesOf_append, statusesOf_playAudio, statusesOf_flatMap, List.nil_append]
    · exact statusesOf_flatMap fcs

theorem statusesOf_sourceStops (units : List ScheduledUnit) :
    statusesOf (units.map fun u => Event.sourceStop u.id) = [] := by
  induction units with
  | nil => rfl
  | cons u rest ih => simp [statusesOf, ih]

theorem statusesOf_disconnect (st : LuminaState) :
    statusesOf (disconnect st).2 = ["Disconnected"] := by
  unfold disconnect
  simp only [statusesOf_append, statusesOf_sourceStops]
  split_ifs <;> rfl

/-! ## Claim theorems -/

/-- C2 (counterexample): the encoder does not quantize by `round(s * 32768)`
with clamping at the boundary. At `s = 1.0` the code stores `-32768`
(wraparound) where the claim demands the clamped `32767`; at
`s = 1/65536` the code truncates `0.5` to `0` where the claim's rounding
gives `1`. The blob for `[1.0]` carries the little-endian bytes of
`-32768`. -/
theorem C2_quantize_counterexample :
    quantize 1 = -32768 ∧ specQuantize 1 = 32767 ∧
    quantize (1 / 65536) = 0 ∧ specQuantize (1 / 65536) = 1 ∧
    atob (createBlob [1]).data = [0, 128] := by
  refine ⟨quantize_one, specQuantize_one, quantize_half_step,
    specQuantize_half_step, ?blob⟩
  case blob =>
    show atob (btoa (([(1 : ℚ)].map quantize).flatMap int16ToBytesLE)) = [0, 128]
    rw [List.map_cons, List.map_nil, quantize_one]
    decide

/-- C2 (amended): for every captured frame, each sample is quantized by
truncating `s * 32768` toward zero and wrapping modulo 2^16 into the int16
range (so `+1.0` wraps to `-32768` rather than clamping); the resulting
int16 values are packed little-endian and base64-encoded (decoding the
blob recovers exactly the quantized values), and the blob is tagged with
the `rate=16000` descriptor. For in-range samples `-1 ≤ s < 1` the wrap is
the identity, so quantization is plain truncation there. -/
theorem C2_encoder_characterization (data : List ℚ) :
    bytesToInt16s (atob (createBlob data).data) = data.map quantize ∧
    (createBlob data).mimeType = "audio/pcm;rate=16000" ∧
    (∀ s ∈ data, -1 ≤ s → s < 1 → quantize s = truncQ (s * 32768)) ∧
    quantize 1 = -32768 := by
  refine ⟨?pack, rfl, ?inrange, quantize_one⟩
  case pack =>
    have hlt : ∀ b ∈ (data.map quantize).flatMap int16ToBytesLE, b < 256 := by
      intro b hb
      simp only [List.mem_flatMap] at hb
      obtain ⟨v, _, hv⟩ := hb
      exact int16ToBytesLE_lt_256 v b hv
    simp only [createBlob]
    rw [atob_btoa _ hlt]
    refine bytesToInt16s_pack _ fun v hv => ?hrange
    simp only [List.mem_map] at hv
    obtain ⟨s, _, rfl⟩ := hv
    exact quantize_range s
  case inrange => exact fun s _ h1 h2 => quantize_eq_trunc h1 h2

/-- C2 (witness): the amended characterization evaluated on the concrete
frame `[1/2]`, whose quantized value is `16384`. -/
theorem C2_encoder_characterization_witness :
    bytesToInt16s (atob (createBlob [(1 : ℚ) / 2]).data) = [16384] ∧
    quantize ((1 : ℚ) / 2) = truncQ ((1 : ℚ) / 2 * 32768) := by
  have h := C2_encoder_characterization [(1 : ℚ) / 2]
  refine ⟨?a, h.2.2.1 (1 / 2) (by simp) (by norm_num) (by norm_num)⟩
  case a =>
    rw [h.1, List.map_cons, List.map_nil, quantize_half]

/-- C3 (counterexample): the encode-then-decode roundtrip is not within one
quantization step at the `+1.0` boundary: the frame `[1.0]` decodes back to
`[-1.0]`, an error of `2`. -/
theorem C3_boundary_counterexample :
    roundtrip [1] = some [-1] ∧ ¬ |(1 : ℚ) - (-1)| ≤ 1 / 32768 := by
  constructor
  · rw [roundtrip_eq, List.map_cons, List.map_nil, quantize_one,
      List.map_cons, List.map_nil]
    norm_num
  · rw [show |(1 : ℚ) - (-1)| = 2 by norm_num]
    norm_num

/-- C3 (amended): for every sample sequence, the PCM16 encode-then-decode
roundtrip succeeds and reproduces every sample lying in `[-1.0, 1.0)`
within one quantization step (`|original - roundtrip| ≤ 1/32768`,
including the `-1.0` boundary); the `+1.0` boundary is excluded because it
wraps to `-1.0`. -/
theorem C3_roundtrip_close (data rt : List ℚ) (h : roundtrip data = some rt) :
    rt.length = data.length ∧
    ∀ i (h1 : i < data.length) (h2 : i < rt.length),
      -1 ≤ data.get ⟨i, h1⟩ → data.get ⟨i, h1⟩ < 1 →
      |data.get ⟨i, h1⟩ - rt.get ⟨i, h2⟩| ≤ 1 / 32768 := by
  rw [roundtrip_eq] at h
  obtain rfl : rt = (data.map quantize).map (fun v : ℤ => (v : ℚ) / 32768) :=
    (Option.some_inj.mp h).symm
  constructor
  · simp
  · intro i h1 h2 hlo hhi
    have hget : ((data.map quantize).map fun v : ℤ => (v : ℚ) / 32768).get ⟨i, h2⟩ =
        (quantize (data.get ⟨i, h1⟩) : ℚ) / 32768 := by
      simp [List.get_map]
    rw [hget]
    exact quantize_close hlo hhi

/-- C3 (witness): the amended roundtrip bound evaluated on the concrete
frame `[1/2, -1]`, which decodes back exactly. -/
theorem C3_roundtrip_close_witness :
    roundtrip [(1 : ℚ) / 2, -1] = some [(1 : ℚ) / 2, -1] ∧
    |((1 : ℚ) / 2) - ((1 : ℚ) / 2)| ≤ 1 / 32768 := by
  have hrt : roundtrip [(1 : ℚ) / 2, -1] = some [(1 : ℚ) / 2, -1] := by
    rw [roundtrip_eq]
    norm_num [quantize_half, quantize_neg_one]
  refine ⟨hrt, ?b⟩
  have h := (C3_roundtrip_close [(1 : ℚ) / 2, -1] [(1 : ℚ) / 2, -1] hrt).2
    0 (by norm_num) (by norm_num) (by norm_num) (by norm_num)
  simpa using h

/-- C10: decoding an inbound payload with an even decoded byte count
produces exactly one float sample per int16 frame — half the byte count —
and every sample equals `v / 32768` for a signed 16-bit `v`, hence lies in
the half-open interval `[-1.0, 1.0)`. -/
theorem C10_decode_normalized (b64 : List ℕ) (h : (atob b64).length % 2 = 0) :
    ∃ samples, decodeAudioData b64 = some samples ∧
      samples.length = (atob b64).length / 2 ∧
      ∀ x ∈ samples, ∃ v : ℤ, -32768 ≤ v ∧ v < 32768 ∧
        x = (v : ℚ) / 32768 ∧ -1 ≤ x ∧ x < 1 := by
  refine ⟨(bytesToInt16s (atob b64)).map fun v : ℤ => (v : ℚ) / 32768, ?dec, ?len, ?mem⟩
  case dec => simp [decodeAudioData, h]
  case len => simp [bytesToInt16s_length]
  case mem =>
    intro x hx
    simp only [List.mem_map] at hx
    obtain ⟨v, hv, rfl⟩ := hx
    have hr := bytesToInt16s_range (atob b64) (mem_atob_lt_256 b64) v hv
    refine ⟨v, hr.1, hr.2, rfl, ?lo, ?hi⟩
    case lo =>
      rw [le_div_iff (by norm_num : (0 : ℚ) < 32768)]
      have : (-32768 : ℚ) ≤ (v : ℚ) := by exact_mod_cast hr.1
      linarith
    case hi =>
      rw [div_lt_one (by norm_num : (0 : ℚ) < 32768)]
      exact_mod_cast hr.2

/-- C10 (witness): the decode characterization evaluated on the concrete
payload `AAA=` (two zero bytes), which yields the single sample `0`. -/
theorem C10_decode_normalized_witness :
    (atob [65, 65, 65, 61]).length % 2 = 0 ∧
    ∃ samples, decodeAudioData [65, 65, 65, 61] = some samples ∧
      samples.length = (atob [65, 65, 65, 61]).length / 2 ∧
      ∀ x ∈ samples, ∃ v : ℤ, -32768 ≤ v ∧ v < 32768 ∧
        x = (v : ℚ) / 32768 ∧ -1 ≤ x ∧ x < 1 :=
  ⟨by decide, C10_decode_normalized [65, 65, 65, 61] (by decide)⟩

/-- C1 (counterexample): consecutively scheduled units are not always
back-to-back. From a fresh connected session, a first chunk processed at
clock time 0 is scheduled on `[0, 1/24000)`; a second chunk arriving after
an idle period, at clock time 1, is resynchronized to start at 1, leaving
a gap: its start time `1` differs from `0 + 1/24000`, the end of the first
unit. -/
theorem C1_gap_counterexample :
    (playAudio (playAudio (connectedState 0 [] 0) 0 chunkZero).1 1 chunkZero).1.sources =
      [⟨0, 0, 1 / 24000⟩, ⟨1, 1, 1 / 24000⟩] ∧
    (1 : ℚ) ≠ 0 + 1 / 24000 := by
  have h1 : (playAudio (connectedState 0 [] 0) 0 chunkZero).1 =
      connectedState (1 / 24000) [⟨0, 0, 1 / 24000⟩] 1 := by
    rw [playAudio_some _ _ _ [0] rfl decode_chunkZero]
    unfold connectedState
    norm_num
  have h2 : (playAudio (connectedState (1 / 24000) [⟨0, 0, 1 / 24000⟩] 1) 1 chunkZero).1.sources =
      [⟨0, 0, 1 / 24000⟩, ⟨1, 1, 1 / 24000⟩] := by
    rw [playAudio_some _ _ _ [0] rfl decode_chunkZero]
    unfold connectedState
    rw [show max ((1 : ℚ) / 24000) 1 = 1 from max_eq_right (by norm_num)]
    norm_num
  exact ⟨by rw [h1, h2], by norm_num⟩

/-- C1 (amended): the watermark is monotonically non-decreasing and, at
each scheduling step, the resynchronized watermark `max(watermark, now)`
is ≥ the output clock reading; every successfully decoded chunk is
scheduled to start exactly at the resynchronized watermark and advances it
by exactly the buffer's duration. Consecutively scheduled units never
overlap (the second starts no earlier than the first ends), and they are
exactly back-to-back — zero gap — whenever the clock has not passed the
advanced watermark in between (no idle-gap resynchronization). -/
theorem C1_watermark_invariant (st : LuminaState) (now now2 : ℚ)
    (b64 b642 : List ℕ) (samples samples2 : List ℚ)
    (hctx : st.hasOutputContext = true)
    (hdec : decodeAudioData b64 = some samples)
    (hdec2 : decodeAudioData b642 = some samples2) :
    now ≤ max st.nextStartTime now ∧
    st.nextStartTime ≤ (playAudio st now b64).1.nextStartTime ∧
    (playAudio st now b64).1.sources = st.sources ++
      [⟨st.nextId, max st.nextStartTime now, (samples.length : ℚ) / 24000⟩] ∧
    (playAudio st now b64).1.nextStartTime =
      max st.nextStartTime now + (samples.length : ℚ) / 24000 ∧
    (playAudio (playAudio st now b64).1 now2 b642).1.sources =
      (playAudio st now b64).1.sources ++
        [⟨st.nextId + 1, max (playAudio st now b64).1.nextStartTime now2,
          (samples2.length : ℚ) / 24000⟩] ∧
    (playAudio st now b64).1.nextStartTime ≤
      max (playAudio st now b64).1.nextStartTime now2 ∧
    (now2 ≤ (playAudio st now b64).1.nextStartTime →
      max (playAudio st now b64).1.nextStartTime now2 =
        (playAudio st now b64).1.nextStartTime) := by
  have hdur : (0 : ℚ) ≤ (samples.length : ℚ) / 24000 := by positivity
  have hre := playAudio_some st now b64 samples hctx hdec
  have hctx2 : (playAudio st now b64).1.hasOutputContext = true := by
    rw [hre]
    exact hctx
  have hre2 := playAudio_some (playAudio st now b64).1 now2 b642 samples2 hctx2 hdec2
  refine ⟨le_max_right _ _, ?mono, ?sched, ?adv, ?consec, le_max_left _ _,
    fun h => max_eq_left h⟩
  case mono =>
    rw [hre]
    exact le_trans (le_max_left _ _) (le_add_of_nonneg_right hdur)
  case sched => rw [hre]
  case adv => rw [hre]
  case consec =>
    rw [hre2, hre]

/-- C1 (witness): the amended invariant applied to a fresh connected
session and the concrete zero chunk: the watermark after scheduling equals
`max 0 0 + 1/24000`. -/
theorem C1_watermark_invariant_witness :
    decodeAudioData chunkZero = some [0] ∧
    (playAudio (connectedState 0 [] 0) 0 chunkZero).1.nextStartTime =
      max (connectedState 0 [] 0).nextStartTime 0 + (([(0 : ℚ)].length : ℚ)) / 24000 :=
  ⟨decode_chunkZero,
   (C1_watermark_invariant (connectedState 0 [] 0) 0 0 chunkZero chunkZero [0] [0]
      rfl decode_chunkZero decode_chunkZero).2.2.2.1⟩

/-- C4 (counterexample): a tool invocation whose name is not
`update_screen` is never answered: a message carrying exactly one
invocation named `other_tool` produces an empty event trace — zero tool
responses, where the claim demands exactly one. -/
theorem C4_unanswered_counterexample :
    (handleMessage (connectedState 0 [] 0) 0
      ⟨none, some [⟨"inv-1", "other_tool", "t", "c"⟩]⟩).2 = [] ∧
    toolResponses (handleMessage (connectedState 0 [] 0) 0
      ⟨none, some [⟨"inv-1", "other_tool", "t", "c"⟩]⟩).2 = [] := by
  constructor <;> rfl

/-- C4 (amended): the tool responses produced for an inbound message are
exactly one response per carried invocation whose name is
`update_screen`, in order, each correlated to its own invocation id;
invocations with any other name receive no response. (In particular a
message carrying two `update_screen` invocations produces exactly two
responses.) -/
theorem C4_tool_response_correlation (st : LuminaState) (now : ℚ)
    (msg : Message) (fcs : List FunctionCall) (h : msg.toolCalls = some fcs) :
    toolResponses (handleMessage st now msg).2 =
      (fcs.filter fun fc => fc.name = "update_screen").map fun fc => (fc.id, fc.name) := by
  rcases hA : msg.audioData with _ | b64 <;> simp only [handleMessage, hA, h]
  · exact toolResponses_flatMap fcs
  · split
    · rw [toolResponses_append, toolResponses_playAudio, toolResponses_flatMap,
        List.nil_append]
    · exact toolResponses_flatMap fcs

/-- C4 (witness): a message carrying two `update_screen` invocations
produces exactly the two correlated responses. -/
theorem C4_tool_response_correlation_witness :
    (Message.mk none (some [⟨"a", "update_screen", "t1", "c1"⟩,
        ⟨"b", "update_screen", "t2", "c2"⟩])).toolCalls =
      some [⟨"a", "update_screen", "t1", "c1"⟩, ⟨"b", "update_screen", "t2", "c2"⟩] ∧
    toolResponses (handleMessage initialState 0
        (Message.mk none (some [⟨"a", "update_screen", "t1", "c1"⟩,
          ⟨"b", "update_screen", "t2", "c2"⟩]))).2 =
      [("a", "update_screen"), ("b", "update_screen")] := by
  refine ⟨rfl, ?b⟩
  rw [C4_tool_response_correlation initialState 0 _ _ rfl]
  rfl

/-- C5 (counterexample): teardown does not stop the active playback units
before releasing the input track and the contexts. On a connected state
with one active unit, the trace claimed by the spec (capture stop, then
unit stops, then track release, then context closes) differs from the
trace the code produces (capture stop, track release, context closes,
then unit stops). -/
theorem C5_order_counterexample :
    specTeardownTrace (connectedState 0 [⟨0, 0, 1⟩] 1) ≠
      (disconnect (connectedState 0 [⟨0, 0, 1⟩] 1)).2 := by
  decide

/-- C5 (amended): teardown performs, in order: source-node disconnect,
processor disconnect, input-track stop, input-context close,
output-context close, then stops every unit still in the active set (in
registration order) and clears the set, and finally emits the
`Disconnected` status. Playback units are stopped after — not before —
the track and context releases, and no step is guarded against an
exception from an earlier one. -/
theorem C5_teardown_sequence (st : LuminaState)
    (h1 : st.hasSource = true) (h2 : st.hasProcessor = true)
    (h3 : st.hasStream = true) (h4 : st.hasInputContext = true)
    (h5 : st.hasOutputContext = true) :
    (disconnect st).2 =
      [Event.sourceDisconnect, Event.processorDisconnect, Event.trackStop,
        Event.inputContextClose, Event.outputContextClose] ++
        st.sources.map (fun u => Event.sourceStop u.id) ++
        [Event.statusChange "Disconnected"] ∧
    (disconnect st).1 = { st with sources := [] } := by
  unfold disconnect
  rw [if_pos h1, if_pos h2, if_pos h3, if_pos h4, if_pos h5]
  exact ⟨by simp, rfl⟩

/-- C5 (witness): the teardown sequence on a concrete connected state with
one active unit. -/
theorem C5_teardown_sequence_witness :
    (disconnect (connectedState 0 [⟨0, 0, 1⟩] 1)).2 =
      [Event.sourceDisconnect, Event.processorDisconnect, Event.trackStop,
        Event.inputContextClose, Event.outputContextClose] ++
        (connectedState 0 [⟨0, 0, 1⟩] 1).sources.map (fun u => Event.sourceStop u.id) ++
        [Event.statusChange "Disconnected"] :=
  (C5_teardown_sequence (connectedState 0 [⟨0, 0, 1⟩] 1) rfl rfl rfl rfl rfl).1

/-- C6: disconnecting a session stops every unit in the active set —
one stop event per unit, regardless of playback progress — and leaves the
active set empty. -/
theorem C6_disconnect_stops_all (st : LuminaState) :
    (disconnect st).1.sources = [] ∧
    (∀ u ∈ st.sources, Event.sourceStop u.id ∈ (disconnect st).2) ∧
    (disconnect st).2.countP isSourceStop = st.sources.length := by
  refine ⟨rfl, ?mem, ?cnt⟩
  case mem =>
    intro u hu
    unfold disconnect
    simp only [List.mem_append, List.mem_map]
    exact Or.inl (Or.inr ⟨u, hu, rfl⟩)
  case cnt =>
    unfold disconnect
    simp only [List.countP_append, List.countP_map]
    split_ifs <;>
      simp [isSourceStop, List.countP_cons, Function.comp, List.countP_true]

/-- C7 (counterexample): on a decode failure the session state is not
entirely unaffected: the watermark has already been resynchronized to
`max(watermark, now)` before the decode was attempted. With watermark 0
and clock reading 5, a malformed chunk leaves the watermark at 5, not 0. -/
theorem C7_watermark_resync_counterexample :
    (playAudio (connectedState 0 [] 0) 5 chunkBad).1.nextStartTime = 5 ∧
    (connectedState 0 [] 0).nextStartTime = 0 ∧ (5 : ℚ) ≠ 0 := by
  refine ⟨?a, rfl, by norm_num⟩
  case a =>
    rw [playAudio_none _ _ _ rfl decode_chunkBad]
    show max (0 : ℚ) 5 = 5
    exact max_eq_right (by norm_num)

/-- C7 (amended): a decode failure is caught and logged locally — the
chunk is dropped, the only event is the log, no status change or exception
escapes, the active set and all other fields are unchanged, and subsequent
chunks are processed normally; the one state change is that the
pre-decode watermark resynchronization `watermark := max(watermark, now)`
persists. -/
theorem C7_decode_failure_is_local (st : LuminaState) (now now2 : ℚ)
    (b64 b642 : List ℕ) (samples2 : List ℚ)
    (hctx : st.hasOutputContext = true)
    (hdec : decodeAudioData b64 = none)
    (hdec2 : decodeAudioData b642 = some samples2) :
    playAudio st now b64 =
      ({ st with nextStartTime := max st.nextStartTime now },
        [Event.logError "Audio Decode Error"]) ∧
    (playAudio st now b64).1.sources = st.sources ∧
    statusesOf (playAudio st now b64).2 = [] ∧
    (playAudio (playAudio st now b64).1 now2 b642).1.sources =
      st.sources ++ [⟨st.nextId, max (max st.nextStartTime now) now2,
        (samples2.length : ℚ) / 24000⟩] := by
  have hre := playAudio_none st now b64 hctx hdec
  have hctx2 : (playAudio st now b64).1.hasOutputContext = true := by
    rw [hre]
    exact hctx
  refine ⟨hre, by rw [hre], statusesOf_playAudio st now b64, ?next⟩
  case next =>
    rw [playAudio_some _ now2 b642 samples2 hctx2 hdec2, hre]

/-- C7 (witness): the locality of decode failure on a concrete session:
a bad chunk at clock 5 followed by a good chunk at clock 5. -/
theorem C7_decode_failure_is_local_witness :
    decodeAudioData chunkBad = none ∧
    (playAudio (connectedState 0 [] 0) 5 chunkBad).1.sources =
      (connectedState 0 [] 0).sources ∧
    (playAudio (playAudio (connectedState 0 [] 0) 5 chunkBad).1 5 chunkZero).1.sources =
      (connectedState 0 [] 0).sources ++
        [⟨(connectedState 0 [] 0).nextId,
          max (max (connectedState 0 [] 0).nextStartTime 5) 5,
          (([(0 : ℚ)].length : ℚ)) / 24000⟩] := by
  have h := C7_decode_failure_is_local (connectedState 0 [] 0) 5 5 chunkBad chunkZero [0]
    rfl decode_chunkBad decode_chunkZero
  exact ⟨decode_chunkBad, h.2.1, h.2.2.2⟩

/-- C8 (counterexample): disconnecting an Idle (never-connected) session
is not free of observable effects: it still invokes the status callback
with `Disconnected`. -/
theorem C8_not_silent_counterexample :
    (disconnect initialState).2 = [Event.statusChange "Disconnected"] ∧
    (disconnect initialState).2 ≠ [] := by
  refine ⟨rfl, ?b⟩
  intro h
  exact List.cons_ne_nil _ _ h

/-- C8 (amended): disconnecting an Idle session changes no session state
and performs no release actions, but still emits the `Disconnected`
status callback; a repeated disconnect likewise leaves the state fixed
(teardown is idempotent on the state) while again emitting the status
callback. -/
theorem C8_idle_disconnect :
    (disconnect initialState).1 = initialState ∧
    (disconnect initialState).2 = [Event.statusChange "Disconnected"] ∧
    (∀ st : LuminaState, (disconnect (disconnect st).1).1 = (disconnect st).1) ∧
    (∀ st : LuminaState,
      Event.statusChange "Disconnected" ∈ (disconnect (disconnect st).1).2) := by
  refine ⟨rfl, rfl, fun st => rfl, fun st => ?mem⟩
  case mem =>
    unfold disconnect
    simp [List.mem_append]

/-- C9 (counterexample): the status callback is not limited to the four
claimed strings: connecting emits `Connecting...` (with a trailing
ellipsis), which is not among `Connecting`, `Connected`, `Disconnected`,
`Error`. -/
theorem C9_connecting_ellipsis_counterexample :
    statusesOf (step initialState EnvEvent.userConnect).2 = ["Connecting..."] ∧
    "Connecting..." ∉ claimedStatuses := by
  exact ⟨rfl, by decide⟩

/-- C9 (amended): every invocation of the status callback, across every
entry point of the session (connect, the channel's open/close/error
callbacks, message handling, playback-ended, disconnect), passes exactly
one of the four strings `Connecting...`, `Connected`, `Disconnected`,
`Error`. -/
theorem C9_status_strings (st : LuminaState) (e : EnvEvent) (s : String)
    (h : s ∈ statusesOf (step st e).2) :
    s ∈ ["Connecting...", "Connected", "Disconnected", "Error"] := by
  cases e with
  | userConnect =>
      simp only [step, connect, statusesOf, List.filterMap] at h
      simp only [List.mem_singleton] at h
      simp [h]
  | chanOpen =>
      simp only [step, statusesOf, List.filterMap] at h
      simp only [List.mem_singleton] at h
      simp [h]
  | chanMessage now msg =>
      rw [step, statusesOf_handleMessage] at h
      simp at h
  | chanClose =>
      simp only [step, statusesOf, List.filterMap] at h
      simp only [List.mem_singleton] at h
      simp [h]
  | chanError =>
      simp only [step, statusesOf, List.filterMap] at h
      simp only [List.mem_singleton] at h
      simp [h]
  | ended i =>
      simp only [step, statusesOf, List.filterMap] at h
      simp at h
  | userDisconnect =>
      rw [step, statusesOf_disconnect] at h
      simp only [List.mem_singleton] at h
      simp [h]

/-- C9 (witness): the channel-open callback's status string `Connected`
is among the four. -/
theorem C9_status_strings_witness :
    "Connected" ∈ statusesOf (step initialState EnvEvent.chanOpen).2 ∧
    "Connected" ∈ ["Connecting...", "Connected", "Disconnected", "Error"] :=
  ⟨by decide,
   C9_status_strings initialState EnvEvent.chanOpen "Connected" (by decide)⟩

end LuminaLive
